import Mathlib

/-!
Shallow embedding of src/nar/human-gene-coverage.py.

The script classifies human genes by cross-species phenotype coverage.
Network reads (solr pages, scigraph queries) are external inputs; here they
appear as explicit lists of records.  Python sets become Finset String,
Python str becomes String (or List Char for the regex-substitution in
map_iri_to_curie), optional document fields become Option.
-/

namespace HumanGeneCoverage

/-- A gene (or other term) identifier string, e.g. "NCBIGene:1234". -/
abbrev GeneId := String

/-- One solr document of the per-organism ortholog query
(fields fl = subject, subject_ortholog_closure); the closure field may be
absent (`if 'subject_ortholog_closure' in doc`, line 124). -/
structure OrthologRecord where
  subject : GeneId
  subject_ortholog_closure : Option (List GeneId)
deriving DecidableEq

/-- The mutable objects reachable from get_model_gene_stats (lines 94-142):
the two read-only inputs human_genes and human_genes_pheno, and the five
result sets of the `results` dict (lines 97-103).  model_set and
unmatched_set start empty at each call; model_only, model_human_set and
multi_model_set are the accumulators threaded through the run by main. -/
structure EngineState where
  human_genes : Finset GeneId
  human_genes_pheno : Finset GeneId
  model_set : Finset GeneId
  model_only : Finset GeneId
  model_human_set : Finset GeneId
  multi_model_set : Finset GeneId
  unmatched_set : Finset GeneId
deriving DecidableEq

/-- The body of the inner closure loop, lines 126-136: one ortholog-closure
member is classified; the returned Bool is whether foundOrtholog is set by
this member. -/
def classifyOrtholog (st : EngineState) (g : GeneId) : EngineState × Bool :=
  if g ∈ st.human_genes_pheno then
    ({ st with model_human_set := insert g st.model_human_set,
               model_set := insert g st.model_set }, true)
  else if g ∈ st.human_genes then
    if g ∈ st.model_only then
      ({ st with model_set := insert g st.model_set,
                 multi_model_set := insert g st.multi_model_set }, true)
    else
      ({ st with model_set := insert g st.model_set,
                 model_only := insert g st.model_only }, true)
  else (st, false)

/-- The loop `for ortholog in doc['subject_ortholog_closure']` (line 125);
the Bool is the final value of foundOrtholog (initialised False, line 123). -/
def processClosure (st : EngineState) : List GeneId → EngineState × Bool
  | [] => (st, false)
  | g :: gs =>
    let r := classifyOrtholog st g
    let rest := processClosure r.1 gs
    (rest.1, r.2 || rest.2)

/-- One document of the loop at line 122: classify every closure member (if
the closure field is present), then record the subject as unmatched when no
member matched (lines 137-138). -/
def processDoc (st : EngineState) (doc : OrthologRecord) : EngineState :=
  let r := match doc.subject_ortholog_closure with
           | some closure => processClosure st closure
           | none => (st, false)
  if r.2 then r.1
  else { r.1 with unmatched_set := insert doc.subject r.1.unmatched_set }

/-- get_model_gene_stats, lines 94-142, for one organism: model_set and
unmatched_set start empty (lines 98, 102), then every document of the
(paginated) response stream is processed in order. -/
def get_model_gene_stats (st : EngineState) (docs : List OrthologRecord) : EngineState :=
  List.foldl processDoc { st with model_set := ∅, unmatched_set := ∅ } docs

/-- One configured model organism together with the documents its ortholog
query returns (the external data of the run). -/
structure Organism where
  name : String
  docs : List OrthologRecord

/-- The accumulator state at the start of main's classification loop
(lines 57-60): all tracking sets empty. -/
def initState (hg pheno : Finset GeneId) : EngineState :=
  { human_genes := hg, human_genes_pheno := pheno,
    model_set := ∅, model_only := ∅, model_human_set := ∅,
    multi_model_set := ∅, unmatched_set := ∅ }

/-- The loop over TAXON_MAP in main (lines 67-78): each organism is
processed in configured order and its model_set is recorded in all_models
(line 75). Returns the final accumulator state and the per-organism
model sets. -/
def runSteps (st : EngineState) : List Organism → EngineState × List (String × Finset GeneId)
  | [] => (st, [])
  | o :: os =>
    let st1 := get_model_gene_stats st o.docs
    let r := runSteps st1 os
    (r.1, (o.name, st1.model_set) :: r.2)

/-- Line 82: len(human_genes_pheno) - len(model_human_set), Python int. -/
def humanOnlyCount (pheno mh : Finset GeneId) : ℤ :=
  (pheno.card : ℤ) - (mh.card : ℤ)

/-- Lines 88-89: per-organism one_species_count. -/
def exclusiveCount (ms mm mh : Finset GeneId) : ℤ :=
  (ms.card : ℤ) - ((ms ∩ mm).card : ℤ) - ((ms ∩ mh).card : ℤ)

/-- The closure members of one document, in order ([] when the field is
absent). -/
def docStream (d : OrthologRecord) : List GeneId :=
  d.subject_ortholog_closure.getD []

/-- All closure members one organism's documents present to the inner loop,
in processing order. -/
def orgStream (o : Organism) : List GeneId :=
  (o.docs.map docStream).flatten

/-- All closure members of a whole run, in processing order. -/
def closureStream (orgs : List Organism) : List GeneId :=
  (orgs.map orgStream).flatten

/-! ### Causal association extraction (get_causal_gene_phenotype_assocs) -/

/-- One solr document of the causal query (fl = subject, relation,
is_defined_by, line 228); relation and is_defined_by may be absent. -/
structure CausalDoc where
  subject : GeneId
  relation : Option String
  is_defined_by : Option (List String)
deriving DecidableEq

/-- The causal-source allowlist, lines 231-233. -/
def causal_source : List String :=
  ["http://data.monarchinitiative.org/ttl/clinvar.ttl",
   "http://data.monarchinitiative.org/ttl/omim.ttl",
   "http://data.monarchinitiative.org/ttl/orphanet.ttl"]

/-- The accept/reject decision of lines 241-249 for one document: skip when
relation is present and equals GENO:0000841 (likely pathogenic); else skip
when is_defined_by is present, none of its sources is in causal_source, and
it is not exactly the single hpoa source; otherwise accept. -/
def acceptCausal (doc : CausalDoc) : Bool :=
  if doc.relation = some "GENO:0000841" then false
  else
    match doc.is_defined_by with
    | none => true
    | some sources =>
      if (sources.filter fun s => decide (s ∈ causal_source)).length = 0 ∧
         sources ≠ ["http://data.monarchinitiative.org/ttl/hpoa.ttl"] then false
      else true

/-- get_causal_gene_phenotype_assocs, lines 216-255: accepted documents
contribute their subject to result_set (line 251). -/
def get_causal_gene_phenotype_assocs (docs : List CausalDoc) : Finset GeneId :=
  docs.foldl (fun acc doc => if acceptCausal doc then insert doc.subject acc else acc) ∅

/-! ### Identifier normalisation (map_iri_to_curie)

Python strings are embedded as List Char here because re.sub's behaviour
depends on character-level scanning: the URI prefix is passed to re.sub as
a regular expression in which each dot matches any character other than a
newline, and every non-overlapping occurrence (scanning left to right) is
replaced, not only the leading one. -/

/-- Does the regex that the URI-prefix string denotes match at the head of
the input?  Every pattern character is literal except a dot, which matches
any character other than a newline (Python re default).  On success, the
rest of the input after the match is returned. -/
def patMatch : List Char → List Char → Option (List Char)
  | [], s => some s
  | _ :: _, [] => none
  | p :: ps, c :: cs =>
    if p = '.' then (if c = '\n' then none else patMatch ps cs)
    else if p = c then patMatch ps cs else none

/-- re.sub(pat, rep, s): scan left to right; at each position, if the
pattern matches, emit the replacement and resume after the matched text,
else keep the character and move on.  fuel bounds the recursion (the
callers pass the input length, enough because the patterns in CURIE_MAP are
nonempty, so each replacement consumes at least one character). -/
def reSubAll (pat rep : List Char) : Nat → List Char → List Char
  | _, [] => []
  | 0, s => s
  | fuel + 1, c :: cs =>
    match patMatch pat (c :: cs) with
    | some rest => rep ++ reSubAll pat rep fuel rest
    | none => c :: reSubAll pat rep fuel cs

/-- Python str.startswith for the guard on line 261: a literal (not regex)
leading-substring test. -/
def startswith : List Char → List Char → Bool
  | [], _ => true
  | _ :: _, [] => false
  | p :: ps, c :: cs => if p = c then startswith ps cs else false

/-- The first CURIE_MAP key, "http://www.ncbi.nlm.nih.gov/gene/". -/
def ncbiURI : List Char := "http://www.ncbi.nlm.nih.gov/gene/".data

/-- The replacement text built for the first CURIE_MAP entry on line 263. -/
def ncbiCur : List Char := "NCBIGene:".data

/-- The second CURIE_MAP key, "http://purl.obolibrary.org/obo/NCBITaxon_". -/
def taxonURI : List Char := "http://purl.obolibrary.org/obo/NCBITaxon_".data

/-- The replacement text built for the second CURIE_MAP entry on line 263. -/
def taxonCur : List Char := "NCBITaxon:".data

/-- CURIE_MAP, lines 27-30, in Python 3 dict insertion order, each URI key
paired with the replacement text built from its value on line 263. -/
def CURIE_MAP : List (List Char × List Char) :=
  [(ncbiURI, ncbiCur), (taxonURI, taxonCur)]

/-- The loop of map_iri_to_curie over an arbitrary table: the first entry
whose URI prefix literally starts the iri triggers a re.sub replacement of
that prefix (as a regex) and the loop breaks; no match leaves the iri
unchanged (lines 259-265). -/
def map_iri_to_curie_table : List (List Char × List Char) → List Char → List Char
  | [], iri => iri
  | e :: rest, iri =>
    if startswith e.1 iri then reSubAll e.1 e.2 iri.length iri
    else map_iri_to_curie_table rest iri

/-- map_iri_to_curie, lines 258-265, over the configured CURIE_MAP. -/
def map_iri_to_curie (iri : List Char) : List Char :=
  map_iri_to_curie_table CURIE_MAP iri

/-- Modelled from the spec (section 4.1 contract, quoted by the claim): on
the first table entry whose URI-prefix is a prefix of the input, return the
compact prefix, a colon, then the remainder of the input verbatim; else the
input unchanged.  Used only to compare the implementation against the
claim's wording. -/
def normalizeSpec_table : List (List Char × List Char) → List Char → List Char
  | [], iri => iri
  | e :: rest, iri =>
    if startswith e.1 iri then e.2 ++ iri.drop e.1.length
    else normalizeSpec_table rest iri

/-- The spec-worded normalizer over the configured CURIE_MAP. -/
def normalizeSpec (iri : List Char) : List Char :=
  normalizeSpec_table CURIE_MAP iri

/-- No position of the input starts a regex match of the pattern. -/
def matchFree (pat : List Char) : List Char → Bool
  | [] => true
  | c :: cs => (patMatch pat (c :: cs)).isNone && matchFree pat cs

/-! ### Run invariant

`Inv hg pheno seen st` relates an engine state to the stream `seen` of
closure members already fed to the inner loop of get_model_gene_stats: the
two inputs are untouched, model_human_set stays inside the evidence set,
every model_only member is an evidenced-free human gene seen at least once,
every multi_model_set member one seen at least twice, and the current
organism's model_set is covered by model_only and model_human_set. -/
abbrev Inv (hg pheno : Finset GeneId) (seen : List GeneId) (st : EngineState) : Prop :=
  st.human_genes = hg ∧ st.human_genes_pheno = pheno ∧
  st.model_human_set ⊆ pheno ∧
  (∀ g ∈ st.model_only, g ∈ hg ∧ g ∉ pheno ∧ 1 ≤ seen.count g) ∧
  (∀ g ∈ st.multi_model_set, g ∈ hg ∧ g ∉ pheno ∧ 2 ≤ seen.count g) ∧
  st.model_set ⊆ st.model_only ∪ st.model_human_set

/-! ### Concrete data for the end-to-end scenario and the counterexamples -/

/-- The spec scenario's humanGenes. -/
def hgW : Finset GeneId := {"H1", "H2", "H3", "H4"}

/-- The spec scenario's AnyEvidenceSet. -/
def phenoW : Finset GeneId := {"H1", "H2"}

/-- The spec scenario's three organisms A, B, C with closures
H1 H3, then H3 H4, then H4. -/
def orgsW : List Organism :=
  [⟨"A", [⟨"a1", some ["H1", "H3"]⟩]⟩,
   ⟨"B", [⟨"b1", some ["H3", "H4"]⟩]⟩,
   ⟨"C", [⟨"c1", some ["H4"]⟩]⟩]

/-- A run over the four configured organisms in which the gene H3 occurs as
a closure match only while the first organism is processed, in two distinct
records of that organism. -/
def orgsC1 : List Organism :=
  [⟨"Mouse", [⟨"m1", some ["H3"]⟩, ⟨"m2", some ["H3"]⟩]⟩,
   ⟨"ZebraFish", []⟩, ⟨"Worm", []⟩, ⟨"Fly", []⟩]

/-! ### Branch equations for the inner loop body -/

lemma classify_eq_pheno (st : EngineState) (g : GeneId) (h1 : g ∈ st.human_genes_pheno) :
    classifyOrtholog st g =
      ({ st with model_human_set := insert g st.model_human_set,
                 model_set := insert g st.model_set }, true) := by
  simp [classifyOrtholog, h1]

lemma classify_eq_repeat (st : EngineState) (g : GeneId) (h1 : g ∉ st.human_genes_pheno)
    (h2 : g ∈ st.human_genes) (h3 : g ∈ st.model_only) :
    classifyOrtholog st g =
      ({ st with model_set := insert g st.model_set,
                 multi_model_set := insert g st.multi_model_set }, true) := by
  simp [classifyOrtholog, h1, h2, h3]

lemma classify_eq_first (st : EngineState) (g : GeneId) (h1 : g ∉ st.human_genes_pheno)
    (h2 : g ∈ st.human_genes) (h3 : g ∉ st.model_only) :
    classifyOrtholog st g =
      ({ st with model_set := insert g st.model_set,
                 model_only := insert g st.model_only }, true) := by
  simp [classifyOrtholog, h1, h2, h3]

lemma classify_eq_miss (st : EngineState) (g : GeneId) (h1 : g ∉ st.human_genes_pheno)
    (h2 : g ∉ st.human_genes) :
    classifyOrtholog st g = (st, false) := by
  simp [classifyOrtholog, h1, h2]

lemma count_le_append (x : GeneId) (l1 l2 : List GeneId) :
    l1.count x ≤ (l1 ++ l2).count x := by
  simp only [List.count_append]
  exact Nat.le_add_right _ _

lemma count_append_self (x : GeneId) (l : List GeneId) :
    (l ++ [x]).count x = l.count x + 1 := by
  simp [List.count_append]

/-! ### Invariant preservation -/

lemma Inv_classify {hg pheno : Finset GeneId} {seen : List GeneId} {st : EngineState}
    (g : GeneId) (h : Inv hg pheno seen st) :
    Inv hg pheno (seen ++ [g]) (classifyOrtholog st g).1 := by
  obtain ⟨e1, e2, hmh, hmo, hmm, hms⟩ := h
  have cle : ∀ x : GeneId, seen.count x ≤ (seen ++ [g]).count x :=
    fun x => count_le_append x seen [g]
  by_cases h1 : g ∈ st.human_genes_pheno
  · rw [classify_eq_pheno st g h1]
    refine ⟨e1, e2, ?_, ?_, ?_, ?_⟩
    · rw [Finset.insert_subset_iff]
      exact ⟨e2 ▸ h1, hmh⟩
    · intro x hx
      obtain ⟨a, b, c⟩ := hmo x hx
      exact ⟨a, b, le_trans c (cle x)⟩
    · intro x hx
      obtain ⟨a, b, c⟩ := hmm x hx
      exact ⟨a, b, le_trans c (cle x)⟩
    · rw [Finset.insert_subset_iff]
      refine ⟨Finset.mem_union_right _ (Finset.mem_insert_self g _), ?_⟩
      exact hms.trans (Finset.union_subset_union (Finset.Subset.refl _) (Finset.subset_insert _ _))
  · by_cases h2 : g ∈ st.human_genes
    · by_cases h3 : g ∈ st.model_only
      · rw [classify_eq_repeat st g h1 h2 h3]
        refine ⟨e1, e2, hmh, ?_, ?_, ?_⟩
        · intro x hx
          obtain ⟨a, b, c⟩ := hmo x hx
          exact ⟨a, b, le_trans c (cle x)⟩
        · intro x hx
          rcases Finset.mem_insert.mp hx with rfl | hx2
          · refine ⟨e1 ▸ h2, e2 ▸ h1, ?_⟩
            have hc := (hmo x h3).2.2
            rw [count_append_self]
            omega
          · obtain ⟨a, b, c⟩ := hmm x hx2
            exact ⟨a, b, le_trans c (cle x)⟩
        · rw [Finset.insert_subset_iff]
          exact ⟨Finset.mem_union_left _ h3, hms⟩
      · rw [classify_eq_first st g h1 h2 h3]
        refine ⟨e1, e2, hmh, ?_, ?_, ?_⟩
        · intro x hx
          rcases Finset.mem_insert.mp hx with rfl | hx2
          · refine ⟨e1 ▸ h2, e2 ▸ h1, ?_⟩
            rw [count_append_self]
            omega
          · obtain ⟨a, b, c⟩ := hmo x hx2
            exact ⟨a, b, le_trans c (cle x)⟩
        · intro x hx
          obtain ⟨a, b, c⟩ := hmm x hx
          exact ⟨a, b, le_trans c (cle x)⟩
        · rw [Finset.insert_subset_iff]
          refine ⟨Finset.mem_union_left _ (Finset.mem_insert_self g _), ?_⟩
          exact hms.trans (Finset.union_subset_union (Finset.subset_insert _ _) (Finset.Subset.refl _))
    · rw [classify_eq_miss st g h1 h2]
      refine ⟨e1, e2, hmh, ?_, ?_, hms⟩
      · intro x hx
        obtain ⟨a, b, c⟩ := hmo x hx
        exact ⟨a, b, le_trans c (cle x)⟩
      · intro x hx
        obtain ⟨a, b, c⟩ := hmm x hx
        exact ⟨a, b, le_trans c (cle x)⟩

lemma Inv_processClosure (gs : List GeneId) :
    ∀ {hg pheno : Finset GeneId} {seen : List GeneId} {st : EngineState},
      Inv hg pheno seen st → Inv hg pheno (seen ++ gs) (processClosure st gs).1 := by
  induction gs with
  | nil =>
    intro hg pheno seen st h
    simpa using h
  | cons g gs ih =>
    intro hg pheno seen st h
    have h2 := ih (Inv_classify g h)
    have he : (processClosure st (g :: gs)).1 = (processClosure (classifyOrtholog st g).1 gs).1 := rfl
    rw [he]
    simpa [List.append_assoc] using h2

lemma Inv_unmatched {hg pheno : Finset GeneId} {seen : List GeneId} {st : EngineState}
    (u : Finset GeneId) (h : Inv hg pheno seen st) :
    Inv hg pheno seen { st with unmatched_set := u } := h

lemma Inv_processDoc (d : OrthologRecord) {hg pheno : Finset GeneId} {seen : List GeneId}
    {st : EngineState} (h : Inv hg pheno seen st) :
    Inv hg pheno (seen ++ docStream d) (processDoc st d) := by
  unfold processDoc docStream
  cases hd : d.subject_ortholog_closure with
  | none =>
    simp only [hd, Option.getD_none, List.append_nil]
    exact Inv_unmatched _ h
  | some closure =>
    simp only [hd, Option.getD_some]
    have hp := Inv_processClosure closure h
    by_cases hf : (processClosure st closure).2 = true
    · simp only [hf, if_true]
      exact hp
    · simp only [hf, if_false]
      exact Inv_unmatched _ hp

lemma Inv_foldl (docs : List OrthologRecord) :
    ∀ {hg pheno : Finset GeneId} {seen : List GeneId} {st : EngineState},
      Inv hg pheno seen st →
      Inv hg pheno (seen ++ (docs.map docStream).flatten) (docs.foldl processDoc st) := by
  induction docs with
  | nil =>
    intro hg pheno seen st h
    simpa using h
  | cons d ds ih =>
    intro hg pheno seen st h
    have h2 := ih (Inv_processDoc d h)
    simpa [List.append_assoc] using h2

lemma Inv_reset {hg pheno : Finset GeneId} {seen : List GeneId} {st : EngineState}
    (h : Inv hg pheno seen st) :
    Inv hg pheno seen { st with model_set := ∅, unmatched_set := ∅ } := by
  obtain ⟨e1, e2, hmh, hmo, hmm, _⟩ := h
  exact ⟨e1, e2, hmh, hmo, hmm, Finset.empty_subset _⟩

lemma Inv_gms (o : Organism) {hg pheno : Finset GeneId} {seen : List GeneId}
    {st : EngineState} (h : Inv hg pheno seen st) :
    Inv hg pheno (seen ++ orgStream o) (get_model_gene_stats st o.docs) :=
  Inv_foldl o.docs (Inv_reset h)

lemma Inv_runSteps (orgs : List Organism) :
    ∀ {hg pheno : Finset GeneId} {seen : List GeneId} {st : EngineState},
      Inv hg pheno seen st →
      Inv hg pheno (seen ++ closureStream orgs) (runSteps st orgs).1 := by
  induction orgs with
  | nil =>
    intro hg pheno seen st h
    simpa [closureStream] using h
  | cons o os ih =>
    intro hg pheno seen st h
    have h2 := ih (Inv_gms o h)
    have he : (runSteps st (o :: os)).1 = (runSteps (get_model_gene_stats st o.docs) os).1 := rfl
    rw [he]
    simpa [closureStream, List.append_assoc] using h2

lemma Inv_init (hg pheno : Finset GeneId) : Inv hg pheno [] (initState hg pheno) := by
  refine ⟨rfl, rfl, Finset.empty_subset _, ?_, ?_, Finset.empty_subset _⟩
  · intro g hx
    exact absurd hx (Finset.not_mem_empty g)
  · intro g hx
    exact absurd hx (Finset.not_mem_empty g)

lemma Inv_run (hg pheno : Finset GeneId) (orgs : List Organism) :
    Inv hg pheno (closureStream orgs) (runSteps (initState hg pheno) orgs).1 := by
  simpa using Inv_runSteps orgs (Inv_init hg pheno)

/-! ### Monotonicity of the accumulator sets and the input frame -/

lemma mono_classify (st : EngineState) (g : GeneId) :
    st.model_only ⊆ (classifyOrtholog st g).1.model_only ∧
    st.model_human_set ⊆ (classifyOrtholog st g).1.model_human_set := by
  by_cases h1 : g ∈ st.human_genes_pheno
  · rw [classify_eq_pheno st g h1]
    exact ⟨Finset.Subset.refl _, Finset.subset_insert _ _⟩
  · by_cases h2 : g ∈ st.human_genes
    · by_cases h3 : g ∈ st.model_only
      · rw [classify_eq_repeat st g h1 h2 h3]
        exact ⟨Finset.Subset.refl _, Finset.Subset.refl _⟩
      · rw [classify_eq_first st g h1 h2 h3]
        exact ⟨Finset.subset_insert _ _, Finset.Subset.refl _⟩
    · rw [classify_eq_miss st g h1 h2]
      exact ⟨Finset.Subset.refl _, Finset.Subset.refl _⟩

lemma frame_classify (st : EngineState) (g : GeneId) :
    (classifyOrtholog st g).1.human_genes = st.human_genes ∧
    (classifyOrtholog st g).1.human_genes_pheno = st.human_genes_pheno := by
  by_cases h1 : g ∈ st.human_genes_pheno
  · rw [classify_eq_pheno st g h1]
    exact ⟨rfl, rfl⟩
  · by_cases h2 : g ∈ st.human_genes
    · by_cases h3 : g ∈ st.model_only
      · rw [classify_eq_repeat st g h1 h2 h3]
        exact ⟨rfl, rfl⟩
      · rw [classify_eq_first st g h1 h2 h3]
        exact ⟨rfl, rfl⟩
    · rw [classify_eq_miss st g h1 h2]
      exact ⟨rfl, rfl⟩

lemma mono_processClosure (gs : List GeneId) :
    ∀ st : EngineState,
      st.model_only ⊆ (processClosure st gs).1.model_only ∧
      st.model_human_set ⊆ (processClosure st gs).1.model_human_set := by
  induction gs with
  | nil =>
    intro st
    exact ⟨Finset.Subset.refl _, Finset.Subset.refl _⟩
  | cons g gs ih =>
    intro st
    have h1 := mono_classify st g
    have h2 := ih (classifyOrtholog st g).1
    exact ⟨h1.1.trans h2.1, h1.2.trans h2.2⟩

lemma frame_processClosure (gs : List GeneId) :
    ∀ st : EngineState,
      (processClosure st gs).1.human_genes = st.human_genes ∧
      (processClosure st gs).1.human_genes_pheno = st.human_genes_pheno := by
  induction gs with
  | nil =>
    intro st
    exact ⟨rfl, rfl⟩
  | cons g gs ih =>
    intro st
    have h1 := frame_classify st g
    have h2 := ih (classifyOrtholog st g).1
    exact ⟨h2.1.trans h1.1, h2.2.trans h1.2⟩

lemma mono_processDoc (d : OrthologRecord) (st : EngineState) :
    st.model_only ⊆ (processDoc st d).model_only ∧
    st.model_human_set ⊆ (processDoc st d).model_human_set := by
  unfold processDoc
  cases hd : d.subject_ortholog_closure with
  | none =>
    simp only [hd]
    exact ⟨Finset.Subset.refl _, Finset.Subset.refl _⟩
  | some closure =>
    simp only [hd]
    have hp := mono_processClosure closure st
    by_cases hf : (processClosure st closure).2 = true
    · simp only [hf, if_true]
      exact hp
    · simp only [hf, if_false]
      exact hp

lemma frame_processDoc (d : OrthologRecord) (st : EngineState) :
    (processDoc st d).human_genes = st.human_genes ∧
    (processDoc st d).human_genes_pheno = st.human_genes_pheno := by
  unfold processDoc
  cases hd : d.subject_ortholog_closure with
  | none =>
    simp only [hd]
    exact ⟨rfl, rfl⟩
  | some closure =>
    simp only [hd]
    have hp := frame_processClosure closure st
    by_cases hf : (processClosure st closure).2 = true
    · simp only [hf, if_true]
      exact hp
    · simp only [hf, if_false]
      exact hp

lemma mono_foldl (docs : List OrthologRecord) :
    ∀ st : EngineState,
      st.model_only ⊆ (docs.foldl processDoc st).model_only ∧
      st.model_human_set ⊆ (docs.foldl processDoc st).model_human_set := by
  induction docs with
  | nil =>
    intro st
    exact ⟨Finset.Subset.refl _, Finset.Subset.refl _⟩
  | cons d ds ih =>
    intro st
    have h1 := mono_processDoc d st
    have h2 := ih (processDoc st d)
    exact ⟨h1.1.trans h2.1, h1.2.trans h2.2⟩

lemma frame_foldl (docs : List OrthologRecord) :
    ∀ st : EngineState,
      (docs.foldl processDoc st).human_genes = st.human_genes ∧
      (docs.foldl processDoc st).human_genes_pheno = st.human_genes_pheno := by
  induction docs with
  | nil =>
    intro st
    exact ⟨rfl, rfl⟩
  | cons d ds ih =>
    intro st
    have h1 := frame_processDoc d st
    have h2 := ih (processDoc st d)
    exact ⟨h2.1.trans h1.1, h2.2.trans h1.2⟩

lemma mono_gms (o : Organism) (st : EngineState) :
    st.model_only ⊆ (get_model_gene_stats st o.docs).model_only ∧
    st.model_human_set ⊆ (get_model_gene_stats st o.docs).model_human_set :=
  mono_foldl o.docs { st with model_set := ∅, unmatched_set := ∅ }

lemma mono_runSteps (orgs : List Organism) :
    ∀ st : EngineState,
      st.model_only ⊆ (runSteps st orgs).1.model_only ∧
      st.model_human_set ⊆ (runSteps st orgs).1.model_human_set := by
  induction orgs with
  | nil =>
    intro st
    exact ⟨Finset.Subset.refl _, Finset.Subset.refl _⟩
  | cons o os ih =>
    intro st
    have h1 := mono_gms o st
    have h2 := ih (get_model_gene_stats st o.docs)
    exact ⟨h1.1.trans h2.1, h1.2.trans h2.2⟩

lemma models_in_union (orgs : List Organism) :
    ∀ {hg pheno : Finset GeneId} {seen : List GeneId} {st : EngineState},
      Inv hg pheno seen st →
      ∀ nm ms, (nm, ms) ∈ (runSteps st orgs).2 →
        ms ⊆ (runSteps st orgs).1.model_only ∪ (runSteps st orgs).1.model_human_set := by
  induction orgs with
  | nil =>
    intro hg pheno seen st _ nm ms hmem
    simp [runSteps] at hmem
  | cons o os ih =>
    intro hg pheno seen st h nm ms hmem
    have hst1 := Inv_gms o h
    have he : runSteps st (o :: os) =
        ((runSteps (get_model_gene_stats st o.docs) os).1,
         (o.name, (get_model_gene_stats st o.docs).model_set) ::
           (runSteps (get_model_gene_stats st o.docs) os).2) := rfl
    rw [he] at hmem ⊢
    rcases List.mem_cons.mp hmem with heq | htail
    · have hms : ms = (get_model_gene_stats st o.docs).model_set := congrArg Prod.snd heq
      subst hms
      have hcov := hst1.2.2.2.2.2
      have hmono := mono_runSteps os (get_model_gene_stats st o.docs)
      exact hcov.trans (Finset.union_subset_union hmono.1 hmono.2)
    · exact ih hst1 nm ms htail

/-! ### Normalizer lemmas -/

lemma startswith_cons_ex (p : Char) (ps s : List Char) (h : startswith (p :: ps) s = true) :
    ∃ cs, s = p :: cs ∧ startswith ps cs = true := by
  cases s with
  | nil => simp [startswith] at h
  | cons c cs =>
    by_cases hpc : p = c
    · subst hpc
      refine ⟨cs, rfl, ?_⟩
      simpa [startswith] using h
    · simp [startswith, hpc] at h

lemma startswith_head_ne (a b : Char) (ps l : List Char) (hab : a ≠ b) :
    startswith (a :: ps) (b :: l) = false := by
  simp [startswith, hab]

lemma patMatch_of_startswith (p : List Char) :
    ∀ s : List Char, startswith p s = true → patMatch p s = some (s.drop p.length) := by
  induction p with
  | nil =>
    intro s _
    simp [patMatch]
  | cons a ps ih =>
    intro s h
    obtain ⟨cs, rfl, h2⟩ := startswith_cons_ex a ps s h
    by_cases hdot : a = '.'
    · subst hdot
      have : patMatch ('.' :: ps) ('.' :: cs) = patMatch ps cs := by
        simp [patMatch]
      rw [this, ih cs h2]
      simp
    · have : patMatch (a :: ps) (a :: cs) = patMatch ps cs := by
        simp [patMatch, hdot]
      rw [this, ih cs h2]
      simp

lemma reSubAll_cons_match (pat rep : List Char) (c : Char) (cs r : List Char) (n : Nat)
    (h : patMatch pat (c :: cs) = some r) :
    reSubAll pat rep (n + 1) (c :: cs) = rep ++ reSubAll pat rep n r := by
  simp [reSubAll, h]

lemma reSubAll_of_matchFree (pat rep : List Char) :
    ∀ (t : List Char) (fuel : Nat), matchFree pat t = true → t.length ≤ fuel →
      reSubAll pat rep fuel t = t := by
  intro t
  induction t with
  | nil =>
    intro fuel _ _
    cases fuel <;> simp [reSubAll]
  | cons c cs ih =>
    intro fuel hmf hlen
    have hnone : patMatch pat (c :: cs) = none := by
      simp [matchFree] at hmf
      exact hmf.1
    have hmf2 : matchFree pat cs = true := by
      simp [matchFree] at hmf
      exact hmf.2
    cases fuel with
    | zero => simp at hlen
    | succ n =>
      have : reSubAll pat rep (n + 1) (c :: cs) = c :: reSubAll pat rep n cs := by
        simp [reSubAll, hnone]
      rw [this, ih n hmf2 (by simpa using Nat.lt_succ_iff.mp (Nat.lt_of_lt_of_le (Nat.lt_succ_self _) hlen))]

lemma reSubAll_single (p : Char) (ps rep s : List Char)
    (h1 : startswith (p :: ps) s = true)
    (h2 : matchFree (p :: ps) (s.drop (p :: ps).length) = true) :
    reSubAll (p :: ps) rep s.length s = rep ++ s.drop (p :: ps).length := by
  obtain ⟨cs, rfl, _⟩ := startswith_cons_ex p ps s h1
  have hm := patMatch_of_startswith (p :: ps) (p :: cs) h1
  have hlen : (p :: cs).length = cs.length + 1 := rfl
  rw [hlen, reSubAll_cons_match _ _ _ _ _ _ hm]
  congr 1
  have hdroplen : ((p :: cs).drop (p :: ps).length).length ≤ cs.length := by
    simp only [List.length_drop]
    simp
  exact reSubAll_of_matchFree _ _ _ _ h2 hdroplen

lemma map_iri_to_curie_unfold (s : List Char) :
    map_iri_to_curie s =
      if startswith ncbiURI s = true then reSubAll ncbiURI ncbiCur s.length s
      else if startswith taxonURI s = true then reSubAll taxonURI taxonCur s.length s
      else s := by
  simp [map_iri_to_curie, map_iri_to_curie_table, CURIE_MAP]

/-! ### Causal extraction lemmas -/

lemma mem_causal_foldl (docs : List CausalDoc) :
    ∀ (acc : Finset GeneId) (g : GeneId),
      (g ∈ docs.foldl
          (fun acc doc => if acceptCausal doc then insert doc.subject acc else acc) acc ↔
        g ∈ acc ∨ ∃ d, d ∈ docs ∧ d.subject = g ∧ acceptCausal d = true) := by
  induction docs with
  | nil => simp
  | cons d ds ih =>
    intro acc g
    by_cases ha : acceptCausal d = true
    · simp only [List.foldl_cons, ha, if_true, ih, Finset.mem_insert, List.mem_cons]
      constructor
      · rintro (⟨rfl | hacc⟩ | ⟨e, he, hs, hae⟩)
        · exact Or.inr ⟨d, Or.inl rfl, rfl, ha⟩
        · exact Or.inl hacc
        · exact Or.inr ⟨e, Or.inr he, hs, hae⟩
      · rintro (hacc | ⟨e, he | he, hs, hae⟩)
        · exact Or.inl (Or.inr hacc)
        · subst he
          exact Or.inl (Or.inl hs.symm)
        · exact Or.inr ⟨e, he, hs, hae⟩
    · simp only [List.foldl_cons, ha, if_false, ih, List.mem_cons]
      constructor
      · rintro (hacc | ⟨e, he, hs, hae⟩)
        · exact Or.inl hacc
        · exact Or.inr ⟨e, Or.inr he, hs, hae⟩
      · rintro (hacc | ⟨e, he | he, hs, hae⟩)
        · exact Or.inl hacc
        · subst he
          exact absurd hae ha
        · exact Or.inr ⟨e, he, hs, hae⟩

lemma acceptCausal_iff (d : CausalDoc) :
    acceptCausal d = true ↔
      (d.relation ≠ some "GENO:0000841" ∧
       (d.is_defined_by = none ∨
        (∃ s ∈ d.is_defined_by.getD [], s ∈ causal_source) ∨
        d.is_defined_by = some ["http://data.monarchinitiative.org/ttl/hpoa.ttl"])) := by
  unfold acceptCausal
  by_cases hr : d.relation = some "GENO:0000841"
  · simp [hr]
  · cases hd : d.is_defined_by with
    | none => simp [hr, hd]
    | some sources =>
      have hkey : ((sources.filter fun s => decide (s ∈ causal_source)).length = 0) ↔
          ¬ ∃ s ∈ sources, s ∈ causal_source := by
        rw [List.length_eq_zero, List.filter_eq_nil_iff]
        simp
      rw [if_neg hr]
      show (if ((sources.filter fun s => decide (s ∈ causal_source)).length = 0 ∧
          sources ≠ ["http://data.monarchinitiative.org/ttl/hpoa.ttl"]) then false else true) =
            true ↔ _
      constructor
      · intro hacc
        have hnc : ¬((sources.filter fun s => decide (s ∈ causal_source)).length = 0 ∧
            sources ≠ ["http://data.monarchinitiative.org/ttl/hpoa.ttl"]) := by
          intro hcond
          rw [if_pos hcond] at hacc
          exact Bool.false_ne_true hacc
        refine ⟨hr, ?_⟩
        rcases Decidable.not_and_iff_or_not.mp hnc with hna | hnb
        · refine Or.inr (Or.inl ?_)
          by_contra hno
          have hno2 : ¬ ∃ s ∈ sources, s ∈ causal_source := by
            intro hex
            exact hno (by simpa using hex)
          exact hna (hkey.mpr hno2)
        · exact Or.inr (Or.inr (congrArg some (Decidable.not_not.mp hnb)))
      · rintro ⟨-, hnone | hex | hse⟩
        · exact absurd hnone (by simp)
        · rw [if_neg]
          rintro ⟨h0, -⟩
          exact (hkey.mp h0) (by simpa using hex)
        · rw [if_neg]
          rintro ⟨-, hne⟩
          exact hne (Option.some.inj hse)

lemma excl_nonneg (A M H : Finset GeneId) (hd : Disjoint M H) : 0 ≤ exclusiveCount A M H := by
  have hdisj : Disjoint (A ∩ M) (A ∩ H) :=
    hd.mono Finset.inter_subset_right Finset.inter_subset_right
  have hsub : (A ∩ M) ∪ (A ∩ H) ⊆ A :=
    Finset.union_subset Finset.inter_subset_left Finset.inter_subset_left
  have hcard := Finset.card_le_card hsub
  rw [Finset.card_union_of_disjoint hdisj] at hcard
  unfold exclusiveCount
  omega

lemma map_not_h (c : Char) (t : List Char) (hc : c ≠ 'h') :
    map_iri_to_curie (c :: t) = c :: t := by
  rw [map_iri_to_curie_unfold]
  have h1 : startswith ncbiURI (c :: t) = false := by
    rw [show ncbiURI = 'h' :: "ttp://www.ncbi.nlm.nih.gov/gene/".data from by decide]
    exact startswith_head_ne _ _ _ _ (fun he => hc he.symm)
  have h2 : startswith taxonURI (c :: t) = false := by
    rw [show taxonURI = 'h' :: "ttp://purl.obolibrary.org/obo/NCBITaxon_".data from by decide]
    exact startswith_head_ne _ _ _ _ (fun he => hc he.symm)
  rw [if_neg (by simp [h1]), if_neg (by simp [h2])]

/-! ### The claims -/

/-- Claim C1, counterexample: in a run over the four configured organisms
where the gene H3 occurs as a matching closure member only during the first
organism (in two of its records), H3 nevertheless ends up in
multi_model_set, contradicting the claim that membership requires matches
under at least two distinct organisms. -/
theorem c1_counterexample :
    ((orgsC1.map orgStream).filter (fun l => l.contains "H3")).length = 1 ∧
    "H3" ∈ (runSteps (initState {"H3"} ∅) orgsC1).1.multi_model_set := by
  constructor
  · decide
  · decide

/-- Claim C1 (amended): every gene in multi_model_set at the end of a run
was encountered as a matching ortholog-closure member (in humanGenes and
not in AnyEvidenceSet) at least twice in the record stream, but the two
encounters need not fall under distinct organisms: two records of the same
organism (or two repeats inside one closure) suffice. -/
theorem c1_multi_model_two_matches (hg pheno : Finset GeneId) (orgs : List Organism)
    (g : GeneId) (h : g ∈ (runSteps (initState hg pheno) orgs).1.multi_model_set) :
    g ∈ hg ∧ g ∉ pheno ∧ 2 ≤ (closureStream orgs).count g :=
  (Inv_run hg pheno orgs).2.2.2.2.1 g h

/-- Witness for C1 at the counterexample data. -/
theorem c1_witness :
    "H3" ∈ (runSteps (initState {"H3"} ∅) orgsC1).1.multi_model_set ∧
    ("H3" ∈ ({"H3"} : Finset GeneId) ∧ "H3" ∉ (∅ : Finset GeneId) ∧
     2 ≤ (closureStream orgsC1).count "H3") :=
  ⟨by decide, c1_multi_model_two_matches {"H3"} ∅ orgsC1 "H3" (by decide)⟩

/-- Claim C2: one closure member g is classified as follows. If g is in
AnyEvidenceSet, it goes to model_set and model_human_set and nothing else
changes; else if g is in humanGenes, it goes to model_set, to
multi_model_set exactly when it is already in model_only, and afterwards g
is a member of model_only; otherwise the state is untouched. -/
theorem c2_classify_member_cases (st : EngineState) (g : GeneId) :
    (g ∈ st.human_genes_pheno →
       (classifyOrtholog st g).1.model_set = insert g st.model_set ∧
       (classifyOrtholog st g).1.model_human_set = insert g st.model_human_set ∧
       (classifyOrtholog st g).1.model_only = st.model_only ∧
       (classifyOrtholog st g).1.multi_model_set = st.multi_model_set) ∧
    (g ∉ st.human_genes_pheno → g ∈ st.human_genes →
       (classifyOrtholog st g).1.model_set = insert g st.model_set ∧
       ((g ∈ st.model_only →
           (classifyOrtholog st g).1.multi_model_set = insert g st.multi_model_set) ∧
        (g ∉ st.model_only →
           (classifyOrtholog st g).1.multi_model_set = st.multi_model_set)) ∧
       g ∈ (classifyOrtholog st g).1.model_only ∧
       (classifyOrtholog st g).1.model_human_set = st.model_human_set) ∧
    (g ∉ st.human_genes_pheno → g ∉ st.human_genes →
       classifyOrtholog st g = (st, false)) := by
  refine ⟨?_, ?_, ?_⟩
  · intro h1
    rw [classify_eq_pheno st g h1]
    exact ⟨rfl, rfl, rfl, rfl⟩
  · intro h1 h2
    by_cases h3 : g ∈ st.model_only
    · rw [classify_eq_repeat st g h1 h2 h3]
      exact ⟨rfl, ⟨fun _ => rfl, fun hc => absurd h3 hc⟩, h3, rfl⟩
    · rw [classify_eq_first st g h1 h2 h3]
      exact ⟨rfl, ⟨fun hc => absurd hc h3, fun _ => rfl⟩, Finset.mem_insert_self g _, rfl⟩
  · intro h1 h2
    exact classify_eq_miss st g h1 h2

/-- Witness for C2: a concrete state in which the humanGenes branch fires. -/
theorem c2_witness :
    (classifyOrtholog (initState {"H1", "H3"} {"H1"}) "H3").1.model_set =
      insert "H3" (initState {"H1", "H3"} {"H1"}).model_set ∧
    "H3" ∈ (classifyOrtholog (initState {"H1", "H3"} {"H1"}) "H3").1.model_only :=
  ⟨((c2_classify_member_cases (initState {"H1", "H3"} {"H1"}) "H3").2.1
      (by decide) (by decide)).1,
   ((c2_classify_member_cases (initState {"H1", "H3"} {"H1"}) "H3").2.1
      (by decide) (by decide)).2.2.1⟩

/-- Claim C3: the end-to-end scenario of the spec, computed by the
embedding: after organisms A, B, C the tracking sets, humanOnlyCount, and
the exclusiveCount of organism C are exactly as predicted. -/
theorem c3_end_to_end_scenario :
    (runSteps (initState hgW phenoW) orgsW).1.model_human_set = {"H1"} ∧
    (runSteps (initState hgW phenoW) orgsW).1.model_only = {"H3", "H4"} ∧
    (runSteps (initState hgW phenoW) orgsW).1.multi_model_set = {"H3", "H4"} ∧
    humanOnlyCount phenoW (runSteps (initState hgW phenoW) orgsW).1.model_human_set = 1 ∧
    ("C", ({"H4"} : Finset GeneId)) ∈ (runSteps (initState hgW phenoW) orgsW).2 ∧
    exclusiveCount {"H4"} (runSteps (initState hgW phenoW) orgsW).1.multi_model_set
      (runSteps (initState hgW phenoW) orgsW).1.model_human_set = 0 := by
  refine ⟨by decide, by decide, by decide, by decide, by decide, by decide⟩

/-- Claim C4: every gene recorded in some organism model_set is, at the end
of the run, a member of model_only or of model_human_set. -/
theorem c4_partition_completeness (hg pheno : Finset GeneId) (orgs : List Organism)
    (nm : String) (ms : Finset GeneId) (g : GeneId)
    (h1 : (nm, ms) ∈ (runSteps (initState hg pheno) orgs).2) (h2 : g ∈ ms) :
    g ∈ (runSteps (initState hg pheno) orgs).1.model_only ∪
        (runSteps (initState hg pheno) orgs).1.model_human_set :=
  models_in_union orgs (Inv_init hg pheno) nm ms h1 h2

/-- Witness for C4 at the scenario data. -/
theorem c4_witness :
    (("A", ({"H1", "H3"} : Finset GeneId)) ∈ (runSteps (initState hgW phenoW) orgsW).2 ∧
     "H3" ∈ ({"H1", "H3"} : Finset GeneId)) ∧
    "H3" ∈ (runSteps (initState hgW phenoW) orgsW).1.model_only ∪
        (runSteps (initState hgW phenoW) orgsW).1.model_human_set :=
  ⟨⟨by decide, by decide⟩,
   c4_partition_completeness hgW phenoW orgsW "A" {"H1", "H3"} "H3" (by decide) (by decide)⟩

/-- Claim C5: after every per-organism step (every prefix of the organism
list) and hence at the end of the run, model_human_set is contained in
AnyEvidenceSet, and humanOnlyCount is non-negative. -/
theorem c5_model_human_subset_pheno (hg pheno : Finset GeneId) (orgs : List Organism)
    (k : Nat) :
    (runSteps (initState hg pheno) (orgs.take k)).1.model_human_set ⊆ pheno ∧
    0 ≤ humanOnlyCount pheno
          (runSteps (initState hg pheno) (orgs.take k)).1.model_human_set := by
  have hi := Inv_run hg pheno (orgs.take k)
  refine ⟨hi.2.2.1, ?_⟩
  have hcard := Finset.card_le_card hi.2.2.1
  unfold humanOnlyCount
  omega

/-- Claim C6: a gene is in the causal result set iff some record carries it
as subject, its relation is not the likely-pathogenic code, and it has no
provenance list, or an allowlisted source, or exactly the single curated
hpoa source; in particular a likely-pathogenic record is always rejected,
whatever its provenance. -/
theorem c6_causal_accept_iff (docs : List CausalDoc) (g : GeneId) :
    (g ∈ get_causal_gene_phenotype_assocs docs ↔
      ∃ d, d ∈ docs ∧ d.subject = g ∧
        (d.relation ≠ some "GENO:0000841" ∧
         (d.is_defined_by = none ∨
          (∃ s ∈ d.is_defined_by.getD [], s ∈ causal_source) ∨
          d.is_defined_by = some ["http://data.monarchinitiative.org/ttl/hpoa.ttl"]))) ∧
    (∀ d : CausalDoc, d.relation = some "GENO:0000841" → acceptCausal d = false) := by
  constructor
  · unfold get_causal_gene_phenotype_assocs
    rw [mem_causal_foldl docs ∅ g]
    simp only [Finset.not_mem_empty, false_or, acceptCausal_iff]
  · intro d hrel
    unfold acceptCausal
    rw [if_pos hrel]

/-- Witness for C6: a likely-pathogenic record with an allowlisted source
is rejected. -/
theorem c6_witness :
    acceptCausal ⟨"G1", some "GENO:0000841",
      some ["http://data.monarchinitiative.org/ttl/omim.ttl"]⟩ = false :=
  (c6_causal_accept_iff [] "G1").2
    ⟨"G1", some "GENO:0000841", some ["http://data.monarchinitiative.org/ttl/omim.ttl"]⟩ rfl

/-- Claim C7, counterexample: on an input in which the URI prefix occurs
twice, the implementation (re.sub over the whole string) rewrites both
occurrences, so the remainder after the first match is not preserved
verbatim, contradicting the claimed contract, stated here as
normalizeSpec. -/
theorem c7_counterexample :
    map_iri_to_curie
        "http://www.ncbi.nlm.nih.gov/gene/http://www.ncbi.nlm.nih.gov/gene/5".data =
      "NCBIGene:NCBIGene:5".data ∧
    normalizeSpec
        "http://www.ncbi.nlm.nih.gov/gene/http://www.ncbi.nlm.nih.gov/gene/5".data =
      "NCBIGene:http://www.ncbi.nlm.nih.gov/gene/5".data ∧
    map_iri_to_curie
        "http://www.ncbi.nlm.nih.gov/gene/http://www.ncbi.nlm.nih.gov/gene/5".data ≠
      normalizeSpec
        "http://www.ncbi.nlm.nih.gov/gene/http://www.ncbi.nlm.nih.gov/gene/5".data := by
  refine ⟨by decide, by decide, by decide⟩

/-- Claim C7 (amended): the table entries are tried in order and the first
entry whose URI-prefix literally starts the input fires, with the identity
fallback when none does; on a match the function returns the compact
prefix, a colon, and the remainder, but the remainder is preserved verbatim
only when the matched pattern (read as a regex, dot matching any character
other than newline) occurs nowhere in the remainder, because re.sub
replaces every occurrence. -/
theorem c7_normalize_first_match (iri : List Char) :
    (startswith ncbiURI iri = true →
       matchFree ncbiURI (iri.drop ncbiURI.length) = true →
       map_iri_to_curie iri = ncbiCur ++ iri.drop ncbiURI.length) ∧
    (startswith ncbiURI iri = false → startswith taxonURI iri = true →
       matchFree taxonURI (iri.drop taxonURI.length) = true →
       map_iri_to_curie iri = taxonCur ++ iri.drop taxonURI.length) ∧
    (startswith ncbiURI iri = false → startswith taxonURI iri = false →
       map_iri_to_curie iri = iri) := by
  refine ⟨?_, ?_, ?_⟩
  · intro h1 h2
    rw [map_iri_to_curie_unfold, if_pos h1]
    have hsplit : ncbiURI = 'h' :: "ttp://www.ncbi.nlm.nih.gov/gene/".data := by decide
    rw [hsplit] at h1 h2 ⊢
    exact reSubAll_single _ _ _ _ h1 h2
  · intro h0 h1 h2
    rw [map_iri_to_curie_unfold, if_neg (by simp [h0]), if_pos h1]
    have hsplit : taxonURI = 'h' :: "ttp://purl.obolibrary.org/obo/NCBITaxon_".data := by
      decide
    rw [hsplit] at h1 h2 ⊢
    exact reSubAll_single _ _ _ _ h1 h2
  · intro h0 h1
    rw [map_iri_to_curie_unfold, if_neg (by simp [h0]), if_neg (by simp [h1])]

/-- Witness for C7 at a well-behaved input. -/
theorem c7_witness :
    (startswith ncbiURI "http://www.ncbi.nlm.nih.gov/gene/12345".data = true ∧
     matchFree ncbiURI
       ("http://www.ncbi.nlm.nih.gov/gene/12345".data.drop ncbiURI.length) = true) ∧
    map_iri_to_curie "http://www.ncbi.nlm.nih.gov/gene/12345".data =
      ncbiCur ++ "http://www.ncbi.nlm.nih.gov/gene/12345".data.drop ncbiURI.length :=
  ⟨⟨by decide, by decide⟩,
   (c7_normalize_first_match "http://www.ncbi.nlm.nih.gov/gene/12345".data).1
     (by decide) (by decide)⟩

/-- Claim C8: normalization is idempotent on every input with the default
table: a normalized output starts with NCBIGene: or NCBITaxon: (or is
returned unchanged), and neither starts with a configured URI prefix. -/
theorem c8_normalize_idempotent (iri : List Char) :
    map_iri_to_curie (map_iri_to_curie iri) = map_iri_to_curie iri := by
  by_cases h1 : startswith ncbiURI iri = true
  · have hsplit : ncbiURI = 'h' :: "ttp://www.ncbi.nlm.nih.gov/gene/".data := by decide
    obtain ⟨cs, hcs, -⟩ := startswith_cons_ex 'h' _ iri (by rw [hsplit] at h1; exact h1)
    have hm : patMatch ncbiURI iri = some (iri.drop ncbiURI.length) :=
      patMatch_of_startswith ncbiURI iri h1
    have ho : map_iri_to_curie iri =
        ncbiCur ++ reSubAll ncbiURI ncbiCur cs.length (iri.drop ncbiURI.length) := by
      rw [map_iri_to_curie_unfold, if_pos h1]
      rw [hcs] at hm ⊢
      exact reSubAll_cons_match _ _ _ _ _ _ hm
    rw [ho]
    exact map_not_h 'N'
      ("CBIGene:".data ++ reSubAll ncbiURI ncbiCur cs.length (iri.drop ncbiURI.length))
      (by decide)
  · by_cases h2 : startswith taxonURI iri = true
    · have h1f : startswith ncbiURI iri = false := by simpa using h1
      have hsplit : taxonURI = 'h' :: "ttp://purl.obolibrary.org/obo/NCBITaxon_".data := by
        decide
      obtain ⟨cs, hcs, -⟩ := startswith_cons_ex 'h' _ iri (by rw [hsplit] at h2; exact h2)
      have hm : patMatch taxonURI iri = some (iri.drop taxonURI.length) :=
        patMatch_of_startswith taxonURI iri h2
      have ho : map_iri_to_curie iri =
          taxonCur ++ reSubAll taxonURI taxonCur cs.length (iri.drop taxonURI.length) := by
        rw [map_iri_to_curie_unfold, if_neg (by simp [h1f]), if_pos h2]
        rw [hcs] at hm ⊢
        exact reSubAll_cons_match _ _ _ _ _ _ hm
      rw [ho]
      exact map_not_h 'N'
        ("CBITaxon:".data ++ reSubAll taxonURI taxonCur cs.length (iri.drop taxonURI.length))
        (by decide)
    · have h1f : startswith ncbiURI iri = false := by simpa using h1
      have h2f : startswith taxonURI iri = false := by simpa using h2
      have ho : map_iri_to_curie iri = iri := by
        rw [map_iri_to_curie_unfold, if_neg (by simp [h1f]), if_neg (by simp [h2f])]
      rw [ho]
      exact ho

/-- Claim C9: multi_model_set and model_human_set are disjoint after every
prefix of the run, every multi_model_set member is outside AnyEvidenceSet
while model_human_set stays inside it, and every recorded per-organism
exclusiveCount is non-negative. -/
theorem c9_disjoint_and_exclusive_nonneg (hg pheno : Finset GeneId) (orgs : List Organism) :
    (∀ k : Nat,
       Disjoint ((runSteps (initState hg pheno) (orgs.take k)).1.multi_model_set)
         ((runSteps (initState hg pheno) (orgs.take k)).1.model_human_set)) ∧
    (∀ g ∈ (runSteps (initState hg pheno) orgs).1.multi_model_set, g ∉ pheno) ∧
    ((runSteps (initState hg pheno) orgs).1.model_human_set ⊆ pheno) ∧
    (∀ p ∈ (runSteps (initState hg pheno) orgs).2,
       0 ≤ exclusiveCount p.2 ((runSteps (initState hg pheno) orgs).1.multi_model_set)
             ((runSteps (initState hg pheno) orgs).1.model_human_set)) := by
  have hdis : ∀ orgs2 : List Organism,
      Disjoint ((runSteps (initState hg pheno) orgs2).1.multi_model_set)
        ((runSteps (initState hg pheno) orgs2).1.model_human_set) := by
    intro orgs2
    have hi := Inv_run hg pheno orgs2
    rw [Finset.disjoint_left]
    intro a ha hb
    exact (hi.2.2.2.2.1 a ha).2.1 (hi.2.2.1 hb)
  refine ⟨fun k => hdis (orgs.take k), ?_, ?_, ?_⟩
  · intro g hgm
    exact ((Inv_run hg pheno orgs).2.2.2.2.1 g hgm).2.1
  · exact (Inv_run hg pheno orgs).2.2.1
  · intro p _
    exact excl_nonneg p.2 _ _ (hdis orgs)

/-- Witness for C9 at the scenario data. -/
theorem c9_witness :
    ("C", ({"H4"} : Finset GeneId)) ∈ (runSteps (initState hgW phenoW) orgsW).2 ∧
    0 ≤ exclusiveCount {"H4"} ((runSteps (initState hgW phenoW) orgsW).1.multi_model_set)
          ((runSteps (initState hgW phenoW) orgsW).1.model_human_set) :=
  ⟨by decide,
   (c9_disjoint_and_exclusive_nonneg hgW phenoW orgsW).2.2.2 ("C", {"H4"}) (by decide)⟩

/-- Claim C10: one classification step leaves the two precomputed inputs
human_genes and human_genes_pheno exactly as it found them. -/
theorem c10_inputs_preserved (st : EngineState) (docs : List OrthologRecord) :
    (get_model_gene_stats st docs).human_genes = st.human_genes ∧
    (get_model_gene_stats st docs).human_genes_pheno = st.human_genes_pheno := by
  unfold get_model_gene_stats
  have h := frame_foldl docs { st with model_set := ∅, unmatched_set := ∅ }
  exact ⟨h.1, h.2⟩

end HumanGeneCoverage
